import Mathlib

/-!
# Shallow embedding of the UPB partial-label-learning trainer

This file embeds, in Lean 4, the parts of `trainer_idpll.py` and
`datasets/fgvc100.py` that the verified claims are about:

* candidate-label generation validation (`load_fgvc100`, fgvc100.py lines 41-48);
* confidence initialization (`Trainer.build_criterion`, trainer lines 298-314);
* multi-crop test-time evaluation (`Trainer.test`, trainer lines 528-544);
* checkpoint loading (`Trainer.load_model`, trainer lines 579-593);
* epoch index sampling of the training `DataLoader`
  (`shuffle=True, drop_last=True`, fgvc100.py lines 52-58);
* the startup divisibility assertion (trainer lines 186-187);
* attribute usage of `Trainer` (which `self.*` fields are ever assigned) and
  the head-initialization dispatch (`build_model`, trainer lines 239-250).

Tensors are embedded as lists of rationals; a torch float value that can be
non-finite (NaN / inf, produced by a zero divisor) is `Option ℚ`, with `none`
standing for a non-finite value.
-/

namespace UPB

/-- Torch elementwise scalar division: a zero denominator silently yields a
non-finite value (NaN for 0/0, ±inf otherwise), modelled as `none`. -/
def tdiv (x y : ℚ) : Option ℚ :=
  if y = 0 then none else some (x / y)

/-- Sum of a tensor row (`Tensor.sum(dim=1)` applied to one row). -/
def rowSum (row : List ℚ) : ℚ :=
  row.sum

/-- One row of `confidence = self.partialY.float() / tempY` in
`Trainer.build_criterion` (trainer_idpll.py lines 302-303): `tempY` repeats
the row sum across the row, so each entry is divided by its row's sum. -/
def confRow (row : List ℚ) : List (Option ℚ) :=
  row.map (fun x => tdiv x (rowSum row))

/-- The whole confidence matrix computed by `Trainer.build_criterion`
(trainer_idpll.py lines 302-303): `partialY.sum(dim=1).unsqueeze(1).repeat(...)`
then elementwise division. -/
def confidenceInit (partialY : List (List ℚ)) : List (List (Option ℚ)) :=
  partialY.map confRow

/-- Sum of a row of possibly-non-finite values; any non-finite entry
poisons the sum (NaN propagation in torch). -/
def optSum : List (Option ℚ) → Option ℚ
  | [] => some 0
  | none :: _ => none
  | some a :: xs => (optSum xs).map (fun b => a + b)

/-- Row `i` of the scatter `temp[torch.arange(N), ori_labels] = 1` in
`load_fgvc100` (fgvc100.py lines 43-44): the one-hot row of `label` over `C`
classes, starting from `torch.zeros`. -/
def oneHotRow (C label : Nat) : List ℚ :=
  (List.range C).map (fun j => if j = label then 1 else 0)

/-- Torch elementwise product of two rows (`partialY_matrix * temp`). -/
def elemMul (xs ys : List ℚ) : List ℚ :=
  List.zipWith (· * ·) xs ys

/-- `torch.sum(partialY_matrix * temp)` in `load_fgvc100` (fgvc100.py line 46):
the grand sum of the elementwise product with the one-hot true-label matrix. -/
def candidateTrueSum (P : List (List ℚ)) (labels : List Nat) (C : Nat) : ℚ :=
  ((List.zipWith (fun row l => elemMul row (oneHotRow C l)) P labels).map rowSum).sum

/-- The validation condition of fgvc100.py line 46:
`torch.sum(partialY_matrix * temp) == partialY_matrix.shape[0]`. -/
def generationCheck (P : List (List ℚ)) (labels : List Nat) (C : Nat) : Bool :=
  candidateTrueSum P labels C = (P.length : ℚ)

/-- Observable outcome of the tail of `load_fgvc100` (fgvc100.py lines 46-59):
whether the confirmation message is printed and whether the function goes on
to build and return the partial training dataloader. -/
structure LoadOutcome where
  printedDone : Bool
  returnedLoader : Bool
  deriving DecidableEq, Repr

/-- Tail of `load_fgvc100` (fgvc100.py lines 46-59): the check at line 46
guards only the `print('data loading done !')`; whatever its result, execution
falls through to construct `FGVC100_Partialize` and return the dataloader. -/
def load_fgvc100_validate (P : List (List ℚ)) (labels : List Nat) (C : Nat) :
    LoadOutcome :=
  { printedDone := generationCheck P labels C
    returnedLoader := true }

/-! ## Multi-crop test-time evaluation (`Trainer.test`, trainer lines 521-544)

The model call `self.model(image)` returns a pair: line 532 unpacks it as
`output, _ = self.model(image)`.  We embed a Python runtime value as `PyObj`
so that the un-unpacked append at line 541 can be given its actual meaning. -/

/-- A Python runtime value as `Trainer.test` manipulates it: either a 2-D
tensor of per-class scores, or the `(output, extra)` tuple returned by the
model's forward pass. -/
inductive PyObj where
  | tensor (t : List (List ℚ))
  | tuple (a b : PyObj)
  deriving DecidableEq, Repr

/-- The model forward pass: maps each image of the batch independently to a
row of class scores (`out`) and a row of extra features (`feat`), returning
the tuple the trainer unpacks at line 532. -/
def modelForward (out feat : Nat → List ℚ) (batch : List Nat) : PyObj :=
  .tuple (.tensor (batch.map out)) (.tensor (batch.map feat))

/-- Elementwise mean of a nonempty list of equal-length rows
(`.mean(dim=...)` over the crop dimension). -/
def meanRows (rows : List (List ℚ)) : List ℚ :=
  match rows with
  | [] => []
  | r :: rs =>
    ((r :: rs).foldr (fun a b => List.zipWith (· + ·) a b)
        (r.map (fun _ => (0 : ℚ)))).map (fun s => s / (rows.length : ℚ))

/-- Recursion core of `chunkRows`; the fuel argument (instantiated with the
list length, which bounds the number of chunks) makes the recursion
structural. -/
def chunkRowsFuel (ncrops : Nat) : Nat → List (List ℚ) → List (List (List ℚ))
  | 0, _ => []
  | _, [] => []
  | fuel + 1, rows =>
    if ncrops = 0 then []
    else rows.take ncrops :: chunkRowsFuel ncrops fuel (rows.drop ncrops)

/-- Split a flat batch of `bsz * ncrops` rows back into `bsz` groups of
`ncrops` rows (`output.view(_bsz, _ncrops, -1)`, trainer line 533). -/
def chunkRows (ncrops : Nat) (rows : List (List ℚ)) : List (List (List ℚ)) :=
  chunkRowsFuel ncrops rows.length rows

/-- The `_ncrops <= 5` branch of `Trainer.test` (trainer lines 531-533): one
batched forward pass over all `bsz * ncrops` crops, unpacking the model's
tuple, then `view(_bsz, _ncrops, -1).mean(dim=1)`. -/
def testVectorized (out feat : Nat → List ℚ) (images : List (List Nat)) :
    Except String (List (List ℚ)) :=
  match modelForward out feat images.flatten with
  | .tuple (.tensor o) _ =>
    .ok ((chunkRows (images.headD []).length o).map meanRows)
  | _ => .error "ValueError: not enough values to unpack"

/-- `torch.stack` on a Python list: every element must be a tensor; a tuple
element raises a TypeError. -/
def torchStack (xs : List PyObj) : Except String (List (List (List ℚ))) :=
  match xs with
  | [] => .error "RuntimeError: stack expects a non-empty TensorList"
  | _ =>
    xs.foldr
      (fun x acc =>
        match x, acc with
        | .tensor t, .ok ts => .ok (t :: ts)
        | .tuple _ _, _ =>
          .error "TypeError: expected Tensor as element 0 in argument 0, but got tuple"
        | _, .error e => .error e)
      (.ok [])

/-- `.mean(dim=0)` of a stacked 3-D tensor (crop × batch × class): the
elementwise mean over the leading crop dimension (trainer line 542). -/
def meanDim0 (stacked : List (List (List ℚ))) : List (List ℚ) :=
  match stacked with
  | [] => []
  | t :: ts =>
    (((t :: ts).foldr
          (fun a b => List.zipWith (fun ra rb => List.zipWith (· + ·) ra rb) a b)
          (t.map (fun r => r.map (fun _ => (0 : ℚ)))))).map
      (fun row => row.map (fun s => s / ((t :: ts).length : ℚ)))

/-- The `_ncrops > 5` branch of `Trainer.test` (trainer lines 536-542): a
per-crop loop appending `self.model(image[:, k])` — the whole returned tuple,
not its first component — then `torch.stack(output).mean(dim=0)`. -/
def testLoop (out feat : Nat → List ℚ) (images : List (List Nat))
    (ncrops : Nat) : Except String (List (List ℚ)) :=
  let appended : List PyObj :=
    (List.range ncrops).map
      (fun k => modelForward out feat (images.map (fun crops => crops.getD k 0)))
  match torchStack appended with
  | .error e => .error e
  | .ok stacked => .ok (meanDim0 stacked)

/-- The crop-count branch of `Trainer.test` (trainer line 531): at most five
crops takes the vectorized path, more than five takes the per-crop loop. -/
def testEvaluate (out feat : Nat → List ℚ) (images : List (List Nat)) :
    Except String (List (List ℚ)) :=
  let ncrops := (images.headD []).length
  if ncrops ≤ 5 then testVectorized out feat images
  else testLoop out feat images ncrops

/-! ## Checkpoint loading (`Trainer.load_model`, trainer lines 579-593) -/

/-- The shape of a 2-D weight tensor (`.shape` of `head.weight`). -/
def tensorShape (w : List (List ℚ)) : Nat × Nat :=
  (w.length, (w.headD []).length)

/-- The two named state blobs bundled in a checkpoint
(`{"tuner": ..., "head": ...}`, trainer lines 559-562). -/
structure Checkpoint where
  tuner : List ℚ
  headWeight : List (List ℚ)
  deriving DecidableEq, Repr

/-- The trainable state of the model the trainer restores into. -/
structure ModelState where
  tuner : List ℚ
  headWeight : List (List ℚ)
  deriving DecidableEq, Repr

/-- `Trainer.load_model` (trainer lines 579-593): a missing file raises
`FileNotFoundError`; otherwise the tuner state is always loaded, and the head
state is loaded only when the saved head weight's shape equals the current
head weight's shape (lines 590-593). -/
def load_model (file : Option Checkpoint) (m : ModelState) :
    Except String ModelState :=
  match file with
  | none => .error "FileNotFoundError: Checkpoint not found"
  | some ckpt =>
    let m1 : ModelState := { m with tuner := ckpt.tuner }
    if tensorShape ckpt.headWeight = tensorShape m.headWeight then
      .ok { m1 with headWeight := ckpt.headWeight }
    else
      .ok m1

/-! ## Epoch index stream of the training loader (fgvc100.py lines 52-58)

`DataLoader(..., shuffle=True, drop_last=True)`: each epoch the sampler
produces a fresh permutation of the dataset indices (sampling without
replacement) and the loader emits consecutive batches of `batch_size`
indices, discarding the final incomplete batch. -/

/-- Recursion core of `epochIndices`; the fuel argument (instantiated with
the list length, which bounds the number of batches) makes the recursion
structural. -/
def epochIndicesFuel (b : Nat) : Nat → List Nat → List Nat
  | 0, _ => []
  | fuel + 1, l =>
    if b = 0 ∨ l.length < b then []
    else l.take b ++ epochIndicesFuel b fuel (l.drop b)

/-- The flat stream of sample indices one epoch yields, given the sampler's
permutation `l` and the batch size `b`: full batches of `b` are emitted in
order; once fewer than `b` indices remain they are dropped
(`drop_last=True`). -/
def epochIndices (b : Nat) (l : List Nat) : List Nat :=
  epochIndicesFuel b l.length l

/-! ## Startup: `Trainer.build_data_loader` (trainer lines 104-187) -/

/-- The configuration fields startup consults. -/
structure Config where
  batch_size : Nat
  micro_batch_size : Nat
  test_train : Bool
  test_only : Bool
  dataset : String
  deriving Repr

/-- Startup events observable during `build_data_loader`. -/
inductive StartupEvent where
  /-- the fgvc100 loader moves the oracle `wide_resnet50_2` to the
  accelerator (`model.cuda()`, fgvc100.py line 39) -/
  | deviceAlloc
  /-- `assert cfg.batch_size % cfg.micro_batch_size == 0` fails
  (trainer line 186), aborting startup with an AssertionError -/
  | assertFail
  /-- startup completes: `accum_step` is set and the loaders are usable -/
  | loaderBuilt
  deriving DecidableEq, Repr

/-- The event trace of `Trainer.build_data_loader` (trainer lines 166-187)
for the fgvc100 dataset: in a training run the dataset branch executes first
(allocating the oracle on the device), and only then is the divisibility
assertion evaluated; its failure ends the trace. -/
def build_data_loader_events (cfg : Config) : List StartupEvent :=
  (if ¬(cfg.test_train || cfg.test_only) ∧ cfg.dataset = "fgvc100" then
      [StartupEvent.deviceAlloc]
    else [])
  ++ (if cfg.batch_size % cfg.micro_batch_size = 0 then
        [StartupEvent.loaderBuilt]
      else [StartupEvent.assertFail])

/-! ## `Trainer` attributes and head-initialization dispatch

Every attribute the class `Trainer` ever assigns (each `self.<name> = ...`
statement in trainer_idpll.py): `__init__` lines 89-100, `build_data_loader`
lines 171-187, `build_model` lines 202-259, `build_optimizer` lines 291-295,
`build_criterion` lines 305-314, `train` line 440. -/

/-- All attribute names assigned by some method of `Trainer`. -/
def trainerAssignedAttrs : List String :=
  ["device", "cfg", "evaluator", "_writer",
   "train_loader", "partialY", "test_loader", "num_instances",
   "num_classes", "classnames", "accum_step",
   "model", "tuner", "neck", "head",
   "optim", "sched", "scaler",
   "confidence", "algorithm"]

/-- Reading `self.<attr>`: Python raises AttributeError when the attribute
was never assigned. -/
def getattr (assigned : List String) (attr : String) : Except String String :=
  if attr ∈ assigned then .ok attr
  else .error ("AttributeError: " ++ attr)

/-- Loader selection at the top of `Trainer.test` (trainer lines 510-515),
followed by the batch loop: the loop body runs only if the selected loader
attribute exists.  Returns the number of batches processed alongside any
error. -/
def testRun (assigned : List String) (mode : String) (numBatches : Nat) :
    Except String Unit × Nat :=
  if mode = "train" then
    match getattr assigned "train_test_loader" with
    | .error e => (.error e, 0)
    | .ok _ => (.ok (), numBatches)
  else if mode = "test" then
    match getattr assigned "test_loader" with
    | .error e => (.error e, 0)
    | .ok _ => (.ok (), numBatches)
  else
    (.error "UnboundLocalError: data_loader", 0)

/-- The head-initialization strategy `build_model` selects from
`cfg.init_head` (trainer lines 243-250). -/
inductive HeadInitAction where
  | textFeat
  | classMean
  | linearProbe
  | fallthroughNoop
  deriving DecidableEq, Repr

/-- The string dispatch of trainer lines 243-250. -/
def headInitDispatch (init_head : String) : HeadInitAction :=
  if init_head = "text_feat" then .textFeat
  else if init_head = "class_mean" ∨ init_head = "1_shot" ∨
      init_head = "10_shot" ∨ init_head = "100_shot" then .classMean
  else if init_head = "linear_probe" then .linearProbe
  else .fallthroughNoop

/-- What a head-initialization strategy does when run. -/
structure HeadInitOutcome where
  /-- the head's weights were overwritten (`self.head.apply_weight(...)`) -/
  headApplied : Bool
  /-- message printed by the silent fallthrough branch (trainer line 250) -/
  printed : Option String
  deriving DecidableEq, Repr

/-- Running the selected strategy against the set of attributes `Trainer`
actually has: `init_head_class_mean` (trainer line 374) and
`init_head_linear_probe` (trainer line 411) both begin by iterating
`self.train_init_loader`; the fallthrough branch only prints and continues. -/
def runHeadInit (assigned : List String) (a : HeadInitAction) :
    Except String HeadInitOutcome :=
  match a with
  | .textFeat => .ok { headApplied := true, printed := none }
  | .classMean =>
    match getattr assigned "train_init_loader" with
    | .error e => .error e
    | .ok _ => .ok { headApplied := true, printed := none }
  | .linearProbe =>
    match getattr assigned "train_init_loader" with
    | .error e => .error e
    | .ok _ => .ok { headApplied := true, printed := none }
  | .fallthroughNoop =>
    .ok { headApplied := false, printed := some "No initialization with head" }

/-- The head-initialization step of `build_model` (trainer lines 243-250)
as a single function of the configured string. -/
def buildModelHeadInit (init_head : String) : Except String HeadInitOutcome :=
  runHeadInit trainerAssignedAttrs (headInitDispatch init_head)

/-- A configuration that triggers the divisibility assertion:
`batch_size = 3`, `micro_batch_size = 2`, ordinary training run on fgvc100. -/
def cfgIndivisible : Config :=
  { batch_size := 3, micro_batch_size := 2,
    test_train := false, test_only := false, dataset := "fgvc100" }

/-- Concrete model output head used to exercise the test-evaluation paths:
image `i` scores `[i]`. -/
def outScore : Nat → List ℚ := fun i => [(i : ℚ)]

/-- Concrete extra feature component of the model's returned tuple:
image `i` yields `[i + 100]`. -/
def outFeature : Nat → List ℚ := fun i => [(i : ℚ) + 100]

/-! ## Helper lemmas -/

/-- For a 0/1-valued row, the row sum equals the number of ones. -/
theorem rowSum_eq_count (row : List ℚ) (hb : ∀ x ∈ row, x = 0 ∨ x = 1) :
    rowSum row = (row.count 1 : ℚ) := by
  induction row with
  | nil => simp [rowSum]
  | cons x xs ih =>
    have hx := hb x (by simp)
    have hxs : ∀ y ∈ xs, y = 0 ∨ y = 1 := fun y hy => hb y (by simp [hy])
    have ih2 : rowSum xs = (xs.count 1 : ℚ) := ih hxs
    have hcons : rowSum (x :: xs) = x + rowSum xs := by simp [rowSum]
    rcases hx with h | h <;> subst h
    · have hne : ¬((0 : ℚ) == 1) = true := by norm_num
      rw [hcons, ih2, List.count_cons, if_neg hne]
      norm_num
    · have heq : ((1 : ℚ) == 1) = true := by norm_num
      rw [hcons, ih2, List.count_cons, if_pos heq]
      push_cast
      ring

/-- A 0/1-valued row containing a one has positive sum. -/
theorem rowSum_pos (row : List ℚ) (hb : ∀ x ∈ row, x = 0 ∨ x = 1)
    (h1 : 1 ∈ row) : 0 < rowSum row := by
  rw [rowSum_eq_count row hb]
  exact_mod_cast List.count_pos_iff.mpr h1

/-- Pairs of a list zipped with its image under a map are graph pairs. -/
theorem zip_map_snd {α β : Type} (f : α → β) (l : List α) :
    ∀ p ∈ l.zip (l.map f), p.2 = f p.1 := by
  induction l with
  | nil => simp
  | cons x xs ih =>
    intro p hp
    simp only [List.map_cons, List.zip_cons_cons, List.mem_cons] at hp
    rcases hp with h | h
    · subst h; rfl
    · exact ih p h

/-- `optSum` on a list of finite values is the plain sum. -/
theorem optSum_map_some (l : List ℚ) : optSum (l.map some) = some l.sum := by
  induction l with
  | nil => simp [optSum]
  | cons x xs ih => simp [optSum, ih]

/-- Dividing every element by `s` divides the sum by `s`. -/
theorem sum_map_div (l : List ℚ) (s : ℚ) :
    (l.map (fun x => x / s)).sum = l.sum / s := by
  induction l with
  | nil => simp
  | cons x xs ih => simp [ih, add_div]

/-- When the row sum is nonzero, every division in `confRow` is finite. -/
theorem confRow_eq_map_div (row : List ℚ) (h : rowSum row ≠ 0) :
    confRow row = row.map (fun x => some (x / rowSum row)) := by
  unfold confRow
  exact List.map_congr_left (fun x _ => by simp [tdiv, h])

/-! ## Claim C2 -/

/-- Claim C2 (confirmed): for a partial-label matrix whose every row is
0/1-valued and has at least one candidate, `build_criterion`'s confidence
initialization gives each row the uniform distribution over its candidate
support — each entry is `1 / (number of candidates)` where the mask is 1 and
exactly 0 where the mask is 0 — and every initialized row sums to 1. -/
theorem C2_confidence_init_uniform (P : List (List ℚ))
    (hbin : ∀ row ∈ P, ∀ x ∈ row, x = 0 ∨ x = 1)
    (hsupp : ∀ row ∈ P, 1 ∈ row) :
    ∀ row ∈ P, confRow row ∈ confidenceInit P ∧
      (∀ p ∈ row.zip (confRow row),
        p.2 = if p.1 = 1 then some ((row.count 1 : ℚ))⁻¹ else some 0) ∧
      optSum (confRow row) = some 1 := by
  intro row hrow
  have hb := hbin row hrow
  have hpos : 0 < rowSum row := rowSum_pos row hb (hsupp row hrow)
  have hne : rowSum row ≠ 0 := ne_of_gt hpos
  refine ⟨List.mem_map_of_mem confRow hrow, ?_, ?_⟩
  · intro p hp
    have h2 : p.2 = tdiv p.1 (rowSum row) := zip_map_snd _ row p hp
    have hmem : p.1 ∈ row := by
      have := List.of_mem_zip (show (p.1, p.2) ∈ row.zip (confRow row) from hp)
      exact this.1
    rcases hb p.1 hmem with h | h
    · rw [h2, h]
      have : (0 : ℚ) ≠ 1 := by norm_num
      simp [tdiv, hne, this, zero_div]
    · rw [h2, h]
      have hcpos : 0 < row.count 1 := List.count_pos_iff.mpr (hsupp row hrow)
      simp [tdiv, hne, rowSum_eq_count row hb, one_div]
      omega
  · rw [confRow_eq_map_div row hne,
      show row.map (fun x => some (x / rowSum row))
          = (row.map (fun x => x / rowSum row)).map some by
        rw [List.map_map]; rfl,
      optSum_map_some, sum_map_div]
    have hsum : row.sum = rowSum row := rfl
    rw [hsum, div_self hne]

/-- Witness for C2 on the concrete matrix `[[1,0],[1,1]]`, instantiated at
its first row. -/
theorem C2_confidence_init_uniform_witness :
    confRow [(1 : ℚ), 0] ∈ confidenceInit [[(1 : ℚ), 0], [1, 1]] ∧
      optSum (confRow [(1 : ℚ), 0]) = some 1 := by
  have h := C2_confidence_init_uniform [[1, 0], [1, 1]]
    (by intro row hrow x hx; fin_cases hrow <;> fin_cases hx <;> norm_num)
    (by intro row hrow; fin_cases hrow <;> simp)
    [1, 0] (by simp)
  exact ⟨h.1, h.2.2⟩

/-! ## Claim C3 -/

/-- Counterexample to C3: on the all-zero row `[0,0]` the normalization does
not raise any error — `confidenceInit` is the total division
`partialY / rowsum` — and the resulting row consists of non-finite (NaN)
values. -/
theorem C3_counterexample :
    confidenceInit [[0, 0]] = [[none, none]] ∧
      none ∈ (confidenceInit [[0, 0]]).flatten := by
  constructor
  · simp [confidenceInit, confRow, rowSum, tdiv]
  · simp [confidenceInit, confRow, rowSum, tdiv]

/-- Claim C3 as amended: if a row of the partial-label matrix has empty
candidate support when confidence normalization runs, the division
`partialY / rowsum` silently fills that row of the confidence matrix with
non-finite (NaN) values; no error is raised. -/
theorem C3_empty_support_silent_nan (P : List (List ℚ)) (row : List ℚ)
    (hrow : row ∈ P) (hz : rowSum row = 0) :
    confRow row ∈ confidenceInit P ∧ ∀ v ∈ confRow row, v = none := by
  refine ⟨List.mem_map_of_mem confRow hrow, ?_⟩
  intro v hv
  simp only [confRow, List.mem_map] at hv
  obtain ⟨x, _, rfl⟩ := hv
  simp [tdiv, hz]

/-- Witness for the amended C3 on the matrix `[[0,0]]`. -/
theorem C3_empty_support_silent_nan_witness :
    confRow [0, 0] ∈ confidenceInit [[(0 : ℚ), 0]] ∧
      ∀ v ∈ confRow [(0 : ℚ), 0], v = none :=
  C3_empty_support_silent_nan [[0, 0]] [0, 0] (by simp)
    (by simp [rowSum])

/-! ## Claim C1 -/

/-- Multiplying elementwise with an all-zero row sums to zero. -/
theorem rowSum_elemMul_zero (xs ys : List ℚ) (h : ∀ y ∈ ys, y = 0) :
    rowSum (elemMul xs ys) = 0 := by
  induction xs generalizing ys with
  | nil => simp [elemMul, rowSum]
  | cons x xs ih =>
    cases ys with
    | nil => simp [elemMul, rowSum]
    | cons y ys =>
      have hy : y = 0 := h y (by simp)
      have hys : ∀ z ∈ ys, z = 0 := fun z hz => h z (by simp [hz])
      have := ih ys hys
      simp only [elemMul, List.zipWith_cons_cons, rowSum, List.sum_cons] at *
      rw [hy, this]
      ring

/-- The elementwise product with a one-hot row sums to the entry of the row
at the hot index. -/
theorem rowSum_elemMul_oneHot (row : List ℚ) (C l : Nat)
    (hlen : row.length = C) (hl : l < C) :
    rowSum (elemMul row (oneHotRow C l)) = row.getD l 0 := by
  induction row generalizing C l with
  | nil =>
    simp only [List.length_nil] at hlen
    omega
  | cons x xs ih =>
    cases C with
    | zero => omega
    | succ n =>
      have hxs : xs.length = n := by simpa using hlen
      rw [oneHotRow, List.range_succ_eq_map, List.map_cons, List.map_map]
      cases l with
      | zero =>
        have htail :
            ∀ y ∈ (List.range n).map
              ((fun j => if j = 0 then (1 : ℚ) else 0) ∘ Nat.succ), y = 0 := by
          intro y hy
          simp only [List.mem_map, Function.comp] at hy
          obtain ⟨j, _, rfl⟩ := hy
          simp [Nat.succ_ne_zero]
        simp only [elemMul, List.zipWith_cons_cons, rowSum, List.sum_cons,
          if_pos rfl]
        have hzero := rowSum_elemMul_zero xs _ htail
        simp only [elemMul, rowSum] at hzero
        rw [hzero]
        simp
      | succ l' =>
        have hmap :
            (List.range n).map
              ((fun j => if j = l' + 1 then (1 : ℚ) else 0) ∘ Nat.succ)
              = oneHotRow n l' := by
          rw [oneHotRow]
          apply List.map_congr_left
          intro j _
          simp [Function.comp, Nat.succ_inj]
        have hl' : l' < n := by omega
        simp only [elemMul, List.zipWith_cons_cons, rowSum, List.sum_cons]
        rw [show (if (0 : Nat) = l' + 1 then (1 : ℚ) else 0) = 0 by simp, hmap]
        have := ih n l' hxs hl'
        simp only [elemMul, rowSum] at this
        rw [this]
        simp [List.getD_cons_succ]

/-- `zipWith` as a map over the zip of its arguments. -/
theorem zipWith_eq_map_zip {α β γ : Type} (f : α → β → γ) :
    ∀ (l1 : List α) (l2 : List β),
      List.zipWith f l1 l2 = (l1.zip l2).map (fun p => f p.1 p.2) := by
  intro l1
  induction l1 with
  | nil => intro l2; simp
  | cons x xs ih =>
    intro l2
    cases l2 with
    | nil => simp
    | cons y ys => simp [ih ys]

/-- `candidateTrueSum` adds, over the samples, the candidate-mask entry at
each sample's true label. -/
theorem candidateTrueSum_eq (P : List (List ℚ)) (labels : List Nat) (C : Nat)
    (hC : ∀ row ∈ P, row.length = C) (hl : ∀ l ∈ labels, l < C) :
    candidateTrueSum P labels C
      = ((P.zip labels).map (fun p => p.1.getD p.2 0)).sum := by
  unfold candidateTrueSum
  rw [zipWith_eq_map_zip, List.map_map]
  congr 1
  apply List.map_congr_left
  intro p hp
  have h1 : p.1 ∈ P := (List.of_mem_zip (show (p.1, p.2) ∈ P.zip labels from hp)).1
  have h2 : p.2 ∈ labels :=
    (List.of_mem_zip (show (p.1, p.2) ∈ P.zip labels from hp)).2
  exact rowSum_elemMul_oneHot p.1 C p.2 (hC _ h1) (hl _ h2)

/-- A 0/1-valued list's sum is at most its length. -/
theorem binary_sum_le (l : List ℚ) (hb : ∀ x ∈ l, x = 0 ∨ x = 1) :
    l.sum ≤ (l.length : ℚ) := by
  induction l with
  | nil => simp
  | cons x xs ih =>
    have hx := hb x (by simp)
    have hxs : ∀ y ∈ xs, y = 0 ∨ y = 1 := fun y hy => hb y (by simp [hy])
    have := ih hxs
    simp only [List.sum_cons, List.length_cons]
    push_cast
    rcases hx with h | h <;> subst h <;> linarith

/-- A 0/1-valued list sums to its length exactly when every entry is 1. -/
theorem binary_sum_eq_length_iff (l : List ℚ) (hb : ∀ x ∈ l, x = 0 ∨ x = 1) :
    l.sum = (l.length : ℚ) ↔ ∀ x ∈ l, x = 1 := by
  induction l with
  | nil => simp
  | cons x xs ih =>
    have hx := hb x (by simp)
    have hxs : ∀ y ∈ xs, y = 0 ∨ y = 1 := fun y hy => hb y (by simp [hy])
    have hbound := binary_sum_le xs hxs
    have ih2 := ih hxs
    simp only [List.sum_cons, List.length_cons, List.mem_cons]
    constructor
    · intro hsum
      rcases hx with h | h <;> subst h
      · push_cast at hsum
        linarith
      · have : xs.sum = (xs.length : ℚ) := by push_cast at hsum ⊢; linarith
        have hall := ih2.mp this
        intro y hy
        rcases hy with h | h
        · exact h
        · exact hall y h
    · intro hall
      have hx1 : x = 1 := hall x (Or.inl rfl)
      have : ∀ y ∈ xs, y = 1 := fun y hy => hall y (Or.inr hy)
      rw [hx1, ih2.mpr this]
      push_cast
      ring

/-- Counterexample to C1: on a candidate matrix whose single row misses the
true label (`[[0,1,0]]`, true label 0), `load_fgvc100` does not abort — the
failed check only suppresses the confirmation message and the training
dataloader is still built and returned. -/
theorem C1_counterexample :
    load_fgvc100_validate [[0, 1, 0]] [0] 3
      = { printedDone := false, returnedLoader := true } := by
  norm_num [load_fgvc100_validate, generationCheck, candidateTrueSum, elemMul,
    oneHotRow, rowSum, List.range_succ]

/-- Claim C1 as amended: after candidate generation, `load_fgvc100` checks
that the sum of (candidate matrix AND one-hot true labels) over all N samples
equals N — the check passes exactly when every sample's true label is a
candidate — but a violation is not fatal: it only suppresses the
`data loading done !` message, and loading silently continues, still
returning the training dataloader. -/
theorem C1_generation_check_silent (P : List (List ℚ)) (labels : List Nat)
    (C : Nat) (hlen : labels.length = P.length)
    (hC : ∀ row ∈ P, row.length = C) (hl : ∀ l ∈ labels, l < C)
    (hbin : ∀ row ∈ P, ∀ x ∈ row, x = 0 ∨ x = 1) :
    ((load_fgvc100_validate P labels C).printedDone = true ↔
        ∀ p ∈ P.zip labels, p.1.getD p.2 0 = 1) ∧
      (load_fgvc100_validate P labels C).returnedLoader = true := by
  refine ⟨?_, rfl⟩
  show (generationCheck P labels C = true) ↔ _
  rw [generationCheck, decide_eq_true_iff,
    candidateTrueSum_eq P labels C hC hl]
  have hbin2 : ∀ x ∈ (P.zip labels).map (fun p => p.1.getD p.2 0),
      x = 0 ∨ x = 1 := by
    intro x hx
    simp only [List.mem_map] at hx
    obtain ⟨p, hp, rfl⟩ := hx
    have h1 : p.1 ∈ P :=
      (List.of_mem_zip (show (p.1, p.2) ∈ P.zip labels from hp)).1
    have h2 : p.2 ∈ labels :=
      (List.of_mem_zip (show (p.1, p.2) ∈ P.zip labels from hp)).2
    have hidx : p.2 < p.1.length := by rw [hC p.1 h1]; exact hl p.2 h2
    rw [List.getD_eq_getElem p.1 0 hidx]
    exact hbin p.1 h1 _ (List.getElem_mem hidx)
  have hlen2 : ((P.zip labels).map (fun p => p.1.getD p.2 0)).length
      = P.length := by
    simp [List.length_zip, hlen]
  rw [show ((P.length : ℚ))
      = (((P.zip labels).map (fun p => p.1.getD p.2 0)).length : ℚ) by
        rw [hlen2],
    binary_sum_eq_length_iff _ hbin2, List.forall_mem_map]

/-- Witness for the amended C1 on a valid 2-sample, 2-class matrix. -/
theorem C1_generation_check_silent_witness :
    ((load_fgvc100_validate [[1, 0], [0, 1]] [0, 1] 2).printedDone = true ↔
        ∀ p ∈ ([[(1 : ℚ), 0], [0, 1]]).zip [0, 1], p.1.getD p.2 0 = 1) ∧
      (load_fgvc100_validate [[1, 0], [0, 1]] [0, 1] 2).returnedLoader
        = true :=
  C1_generation_check_silent [[1, 0], [0, 1]] [0, 1] 2 (by simp)
    (by intro row hrow; fin_cases hrow <;> simp)
    (by intro l hlm; fin_cases hlm <;> norm_num)
    (by intro row hrow x hx; fin_cases hrow <;> fin_cases hx <;> norm_num)

/-! ## Claim C4 -/

/-- Claim C4 (code bug): the two multi-crop branches of `Trainer.test` are
not equivalent.  With 10 crops (the per-crop loop path) the loop appends
the model's whole `(output, features)` tuple — line 541 never unpacks it the
way line 532 does — so `torch.stack` receives tuples and raises a TypeError;
with 4 crops (the vectorized path) the same model produces the aggregated
per-class mean normally. -/
theorem C4_loop_path_type_error :
    testEvaluate outScore outFeature [[0, 1, 2, 3, 4, 5, 6, 7, 8, 9]]
        = .error
          "TypeError: expected Tensor as element 0 in argument 0, but got tuple"
      ∧ testEvaluate outScore outFeature [[0, 1, 2, 3]]
        = .ok [[(3 : ℚ) / 2]] := by
  constructor
  · rfl
  · norm_num [testEvaluate, testVectorized, testLoop, modelForward, chunkRows,
      chunkRowsFuel, meanRows, outScore, outFeature]

/-! ## Claim C5 -/

/-- Claim C5 (confirmed): when the saved head weight's shape differs from the
current head weight's shape, `load_model` skips the head weights, still
applies the tuner weights, and completes without error. -/
theorem C5_head_shape_mismatch_partial_load (ckpt : Checkpoint)
    (m : ModelState)
    (h : tensorShape ckpt.headWeight ≠ tensorShape m.headWeight) :
    load_model (some ckpt) m
      = .ok { tuner := ckpt.tuner, headWeight := m.headWeight } := by
  simp [load_model, h]

/-- Witness for C5: a saved 1×2 head against a current 2×2 head. -/
theorem C5_head_shape_mismatch_partial_load_witness :
    tensorShape [[(1 : ℚ), 2]] ≠ tensorShape [[(1 : ℚ), 2], [3, 4]] ∧
      load_model (some { tuner := [1], headWeight := [[1, 2]] })
          { tuner := [0], headWeight := [[1, 2], [3, 4]] }
        = .ok { tuner := [1], headWeight := [[1, 2], [3, 4]] } :=
  ⟨by simp [tensorShape],
    C5_head_shape_mismatch_partial_load
      { tuner := [1], headWeight := [[1, 2]] }
      { tuner := [0], headWeight := [[1, 2], [3, 4]] }
      (by simp [tensorShape])⟩

/-! ## Claim C6 -/

/-- The index stream of an epoch is a sublist of the sampler's permutation. -/
theorem epochIndicesFuel_sublist (b : Nat) :
    ∀ (fuel : Nat) (l : List Nat), List.Sublist (epochIndicesFuel b fuel l) l := by
  intro fuel
  induction fuel with
  | zero => intro l; simp [epochIndicesFuel]
  | succ n ih =>
    intro l
    rw [epochIndicesFuel]
    split
    · exact List.nil_sublist l
    · have h2 : List.Sublist (l.take b ++ epochIndicesFuel b n (l.drop b))
          (l.take b ++ l.drop b) :=
        List.Sublist.append (List.Sublist.refl _) (ih (l.drop b))
      simpa [List.take_append_drop] using h2

/-- When the batch size divides the list length (and is positive), no batch
is dropped and the epoch yields the whole permutation. -/
theorem epochIndicesFuel_eq_self (b : Nat) :
    ∀ (fuel : Nat) (l : List Nat), b ≠ 0 → b ∣ l.length → l.length ≤ fuel →
      epochIndicesFuel b fuel l = l := by
  intro fuel
  induction fuel with
  | zero =>
    intro l hb hd hle
    have h0 : l = [] := List.eq_nil_of_length_eq_zero (Nat.le_zero.mp hle)
    subst h0
    simp [epochIndicesFuel]
  | succ n ih =>
    intro l hb hd hle
    by_cases hsmall : l.length < b
    · have h0 : l.length = 0 := by
        rcases Nat.eq_zero_or_pos l.length with h | h
        · exact h
        · exact absurd (Nat.le_of_dvd h hd) (by omega)
      have h0' : l = [] := List.eq_nil_of_length_eq_zero h0
      subst h0'
      simp [epochIndicesFuel]
    · have hd2 : b ∣ (l.drop b).length := by
        rw [List.length_drop]
        exact Nat.dvd_sub' hd (dvd_refl b)
      have hle2 : (l.drop b).length ≤ n := by
        rw [List.length_drop]
        have hbpos : 1 ≤ b := Nat.one_le_iff_ne_zero.mpr hb
        omega
      rw [epochIndicesFuel, if_neg (not_or.mpr ⟨hb, hsmall⟩),
        ih (l.drop b) hb hd2 hle2, List.take_append_drop]

/-- Counterexample to C6: a 3-sample dataset with batch size 2.  The sampler
order `[0,1,2]` is a without-replacement permutation of all indices, yet the
epoch yields only `[0,1]` — index 2 is omitted because `drop_last=True`
discards the final incomplete batch. -/
theorem C6_counterexample :
    List.Perm [0, 1, 2] (List.range 3) ∧ epochIndices 2 [0, 1, 2] = [0, 1] ∧
      2 ∉ epochIndices 2 [0, 1, 2] := by decide

/-- Claim C6 as amended: each epoch the training loader yields indices
without replacement — no index is repeated and every yielded index is a
dataset index — and it yields every index exactly once only when the batch
size divides the dataset size; otherwise the indices of the final
incomplete batch are omitted (`drop_last=True`). -/
theorem C6_epoch_indices_no_repeat (N b : Nat) (perm : List Nat)
    (hperm : perm.Perm (List.range N)) :
    (epochIndices b perm).Nodup ∧ (∀ i ∈ epochIndices b perm, i < N) ∧
      (b ≠ 0 → b ∣ N → (epochIndices b perm).Perm (List.range N)) := by
  have hsub : List.Sublist (epochIndices b perm) perm :=
    epochIndicesFuel_sublist b perm.length perm
  have hnodup : perm.Nodup := hperm.nodup_iff.mpr (List.nodup_range N)
  have hlen : perm.length = N := by
    rw [hperm.length_eq, List.length_range]
  refine ⟨List.Nodup.sublist hsub hnodup, ?_, ?_⟩
  · intro i hi
    have h1 : i ∈ perm := hsub.subset hi
    have h2 : i ∈ List.range N := hperm.subset h1
    exact List.mem_range.mp h2
  · intro hb hd
    rw [epochIndices,
      epochIndicesFuel_eq_self b perm.length perm hb (by rw [hlen]; exact hd)
        (le_refl _)]
    exact hperm

/-- Witness for the amended C6: 4 samples, batch size 2, sampler order
`[2,0,3,1]`. -/
theorem C6_epoch_indices_no_repeat_witness :
    (epochIndices 2 [2, 0, 3, 1]).Nodup ∧
      (∀ i ∈ epochIndices 2 [2, 0, 3, 1], i < 4) ∧
      (2 ≠ 0 → 2 ∣ 4 → (epochIndices 2 [2, 0, 3, 1]).Perm (List.range 4)) :=
  C6_epoch_indices_no_repeat 4 2 [2, 0, 3, 1] (by decide)

/-! ## Claim C7 -/

/-- Counterexample to C7: with `batch_size = 3`, `micro_batch_size = 2` on a
training run, the divisibility assertion does fail, but only after the
fgvc100 loading step has already moved the oracle classifier onto the
accelerator — device resources are allocated before the configuration check
runs. -/
theorem C7_counterexample :
    build_data_loader_events cfgIndivisible
        = [StartupEvent.deviceAlloc, StartupEvent.assertFail] ∧
      StartupEvent.deviceAlloc ∈
        (build_data_loader_events cfgIndivisible).takeWhile
          (fun e => e != StartupEvent.assertFail) := by decide

/-- Claim C7 as amended: if the batch size is not divisible by the
micro-batch size, startup does fail fast — the assertion error is the last
event and the loaders are never built — but in a training run on fgvc100
the failure comes after the dataset-loading step has already allocated
accelerator resources for the oracle, not before all device allocation. -/
theorem C7_divisibility_assert_after_alloc (cfg : Config)
    (h : cfg.batch_size % cfg.micro_batch_size ≠ 0) :
    (build_data_loader_events cfg).getLast? = some StartupEvent.assertFail ∧
      StartupEvent.loaderBuilt ∉ build_data_loader_events cfg ∧
      ((¬(cfg.test_train || cfg.test_only) ∧ cfg.dataset = "fgvc100") →
        build_data_loader_events cfg
          = [StartupEvent.deviceAlloc, StartupEvent.assertFail]) := by
  unfold build_data_loader_events
  rw [if_neg h]
  refine ⟨List.getLast?_concat _, ?_, ?_⟩
  · split
    · simp
    · simp
  · intro hc
    rw [if_pos hc]
    rfl

/-- Witness for the amended C7 on the concrete indivisible configuration. -/
theorem C7_divisibility_assert_after_alloc_witness :
    (build_data_loader_events cfgIndivisible).getLast?
        = some StartupEvent.assertFail ∧
      StartupEvent.loaderBuilt ∉ build_data_loader_events cfgIndivisible ∧
      ((¬(cfgIndivisible.test_train || cfgIndivisible.test_only) ∧
          cfgIndivisible.dataset = "fgvc100") →
        build_data_loader_events cfgIndivisible
          = [StartupEvent.deviceAlloc, StartupEvent.assertFail]) :=
  C7_divisibility_assert_after_alloc cfgIndivisible (by decide)

/-! ## Claim C8 -/

/-- Claim C8 (confirmed): no method of `Trainer` ever assigns
`train_test_loader`, so `test(mode="train")` always raises an AttributeError
while selecting the loader, before processing any batch — whatever the
number of batches the loader would have held. -/
theorem C8_test_train_attribute_error (numBatches : Nat) :
    testRun trainerAssignedAttrs "train" numBatches
      = (.error "AttributeError: train_test_loader", 0) := rfl

/-! ## Claim C9 -/

/-- Claim C9 (confirmed): every `init_head` value that selects
`init_head_class_mean` ("class_mean", "1_shot", "10_shot", "100_shot") or
`init_head_linear_probe` ("linear_probe") makes `build_model` fail with an
AttributeError on `train_init_loader`, which no method ever assigns. -/
theorem C9_head_init_missing_loader (s : String)
    (h : s = "class_mean" ∨ s = "1_shot" ∨ s = "10_shot" ∨ s = "100_shot" ∨
      s = "linear_probe") :
    buildModelHeadInit s = .error "AttributeError: train_init_loader" := by
  rcases h with h | h | h | h | h <;> subst h <;> rfl

/-- Witness for C9 at `init_head = "class_mean"`. -/
theorem C9_head_init_missing_loader_witness :
    buildModelHeadInit "class_mean"
      = .error "AttributeError: train_init_loader" :=
  C9_head_init_missing_loader "class_mean" (Or.inl rfl)

/-! ## Claim C10 -/

/-- Claim C10 (confirmed): any `init_head` value outside the recognized set
falls through to the else branch of `build_model`, which performs no head
initialization, prints "No initialization with head" and continues; no
configuration error is raised. -/
theorem C10_unrecognized_head_init_silent (s : String)
    (h : s ∉ ["text_feat", "class_mean", "1_shot", "10_shot", "100_shot",
      "linear_probe"]) :
    buildModelHeadInit s
      = .ok { headApplied := false,
              printed := some "No initialization with head" } := by
  simp only [List.mem_cons, List.not_mem_nil, or_false, not_or] at h
  obtain ⟨h1, h2, h3, h4, h5, h6⟩ := h
  simp [buildModelHeadInit, headInitDispatch, runHeadInit, h1, h2, h3, h4,
    h5, h6]

/-- Witness for C10 at the unrecognized value `"random"`. -/
theorem C10_unrecognized_head_init_silent_witness :
    buildModelHeadInit "random"
      = .ok { headApplied := false,
              printed := some "No initialization with head" } :=
  C10_unrecognized_head_init_silent "random" (by decide)

end UPB
